import Mathlib

/-!
# LearningGoTheHardWay — verification of the exercise and solution functions

Shallow embedding of the teaching repository's Go functions.

Modelling conventions:
* Go `int` is 64-bit two's complement and its addition wraps; every source
  addition that can overflow is embedded as `wrap64 (a + b)`.  Functions that
  only compare, select or copy `int` values (`GetGrade`, `FindMax`,
  `MergeMaps`, `CompareShapes`, the map accessors) take unbounded `ℤ`
  arguments, since on representable inputs comparison and selection agree
  with the 64-bit machine integer.
* Go `float64` shape dimensions are modelled as `ℚ` (exact arithmetic); the
  embedded shape universe is restricted to the `Shape` implementations whose
  geometry is rational in its inputs (`Square`, `Triangle`).  `Circle` does not
  implement the `Shape` interface in the exercise file (its `Name` method is
  missing — marked `BUG` in the source) and `Ellipse` satisfies it only through
  a pointer receiver with `π`- and square-root-valued geometry, outside the
  rational fragment.
* Go `interface{}` values are the inductive `GoValue` below, covering the
  dynamic types the cited functions branch on (`int`, `float64`, `string`,
  `bool`, `nil`) plus `[]int` as a representative unhandled type.
* A Go `map[string]V` is an association list with distinct keys (the invariant
  every real Go map maintains); `mapSet` is map assignment, `mapLookup` is
  indexing.
* A function that can panic is embedded with result type `Option _`
  (`none` = panic); a `(T, error)` result is a pair `T × Option GoError`.
* `fmt.Printf` output is embedded as the `String` of bytes the call writes to
  standard output.
-/

namespace LearnGo

/-- A Go `map[string]V` as an association list.  Real Go maps never hold a key
twice; theorems that range over arbitrary maps carry that invariant as a
`Nodup` hypothesis on the key list. -/
abbrev GoMap (V : Type) := List (String × V)

/-- Keys of a map, in iteration order. -/
def mapKeys {V : Type} (m : GoMap V) : List String :=
  m.map Prod.fst

/-- Go map indexing `m[k]` in its two-value form: `some v` when the key is
present, `none` otherwise. -/
def mapLookup {V : Type} (m : GoMap V) (k : String) : Option V :=
  match m with
  | [] => none
  | (k1, v) :: t => if k = k1 then some v else mapLookup t k

/-- Go map assignment `m[k] = v`: replaces the binding when the key is
present, otherwise adds it. -/
def mapSet {V : Type} (m : GoMap V) (k : String) (v : V) : GoMap V :=
  match m with
  | [] => [(k, v)]
  | (k1, v1) :: t => if k = k1 then (k1, v) :: t else (k1, v1) :: mapSet t k v

/-- The `for k, v := range src { dst[k] = v }` copy loop used by `MergeMaps`. -/
def copyInto {V : Type} (dst src : GoMap V) : GoMap V :=
  src.foldl (fun m kv => mapSet m kv.1 kv.2) dst

/-- Left-biased choice on optional lookups: the first map's binding when
present, otherwise the second's. -/
def mapOr {V : Type} (a b : Option V) : Option V :=
  match a with
  | some v => some v
  | none => b

/-- Go's 64-bit two's-complement wrap-around: the value of an `int`
arithmetic result, reduced into `[-2^63, 2^63 - 1]`. -/
def wrap64 (x : ℤ) : ℤ :=
  (x + 2 ^ 63) % 2 ^ 64 - 2 ^ 63

/-! ## Module 01 solutions (`modules/01-basics/solutions/exercise1_fix_bugs.go`) -/

namespace Sol01

/-- `CalculateSum` returns the sum of two integers; the Go `+` on `int`
wraps at 64 bits. -/
def CalculateSum (a b : ℤ) : ℤ :=
  wrap64 (a + b)

/-- `GetGrade` returns a letter grade based on a numeric score. -/
def GetGrade (score : ℤ) : String :=
  if score ≥ 90 then "A"
  else if score ≥ 80 then "B"
  else if score ≥ 70 then "C"
  else if score ≥ 60 then "D"
  else "F"

/-- Loop body of `FindMax`: `if n > max { max = n }`. -/
def maxStep (mx n : ℤ) : ℤ :=
  if n > mx then n else mx

/-- `FindMax` returns the maximum value in a slice; `0` for the empty slice.
The Go loop `for _, n := range numbers` runs over the whole slice, the
accumulator starting at `numbers[0]`. -/
def FindMax (numbers : List ℤ) : ℤ :=
  match numbers with
  | [] => 0
  | first :: _ => numbers.foldl maxStep first

/-- The iterative loop of `Fibonacci`: `prev, curr = curr, prev+curr`,
repeated once per index from `2` to `n`; the addition is the wrapping Go
`int` addition. -/
def fibLoop : ℕ → ℤ × ℤ → ℤ × ℤ
  | 0, pc => pc
  | k + 1, (prev, curr) => fibLoop k (curr, wrap64 (prev + curr))

/-- `Fibonacci` returns the nth Fibonacci number iteratively.  The loop
`for i := 2; i <= n; i++` performs `n - 1` iterations when `n ≥ 2` and none
otherwise (`Int.toNat` clamps at zero exactly as the loop guard does). -/
def Fibonacci (n : ℤ) : ℤ :=
  if n = 0 then 0
  else if n = 1 then 1
  else (fibLoop (n - 1).toNat (0, 1)).2

/-- `AlternativeFibonacciRecursive` is the recursive implementation; the
addition of the two recursive results is the wrapping Go `int` addition. -/
def AlternativeFibonacciRecursive (n : ℤ) : ℤ :=
  if n ≤ 1 then n
  else wrap64 (AlternativeFibonacciRecursive (n - 1) + AlternativeFibonacciRecursive (n - 2))
termination_by n.toNat
decreasing_by
  all_goals omega

/-- `MergeMaps` merges two maps into a freshly made result map, copying
`map1` first and then `map2` so that `map2` wins on duplicate keys.  Neither
argument is written to. -/
def MergeMaps (map1 map2 : GoMap ℤ) : GoMap ℤ :=
  copyInto (copyInto [] map1) map2

end Sol01

/-- The Fibonacci sequence as a 64-bit Go program computes it: the source
recurrence `0, 1, fib (n-2) + fib (n-1)` with each addition wrapped.  It
agrees with `Nat.fib` exactly while the value fits in an `int`. -/
def wfib : ℕ → ℤ
  | 0 => 0
  | 1 => 1
  | n + 2 => wrap64 (wfib n + wfib (n + 1))

/-! ## Go `interface{}` values and `error` values -/

/-- A Go `interface{}` value, covering the dynamic types the cited functions
branch on; `vNil` is the nil interface and `vIntSlice` stands for `[]int`, a
representative type that none of the conversion branches handles. -/
inductive GoValue : Type
  | vInt (n : ℤ)
  | vFloat (q : ℚ)
  | vString (s : String)
  | vBool (b : Bool)
  | vNil
  | vIntSlice (l : List ℤ)
deriving DecidableEq

/-- Whether the dynamic type is `int` (a `v.(int)` assertion succeeds). -/
def GoValue.isInt : GoValue → Bool
  | .vInt _ => true
  | _ => false

/-- Whether the dynamic type is `string` (a `v.(string)` assertion succeeds). -/
def GoValue.isString : GoValue → Bool
  | .vString _ => true
  | _ => false

/-- Whether the dynamic type is one `ConvertToInt` handles
(`int`, `float64`, `string` or `bool`). -/
def GoValue.isConvSupported : GoValue → Bool
  | .vInt _ => true
  | .vFloat _ => true
  | .vString _ => true
  | .vBool _ => true
  | _ => false

/-- A Go `error` value produced by the cited functions.  The exact
`fmt.Errorf` message text is elided; the constructor records which error was
built and from what. -/
inductive GoError : Type
  | stringConvError (s : String)
  | typeConvError
deriving DecidableEq

/-! ## `strconv.Atoi` and float-to-int conversion -/

/-- Numeric value of a decimal digit character. -/
def digitVal (c : Char) : ℤ :=
  (c.toNat : ℤ) - 48

/-- Value of a list of decimal digit characters, most significant first. -/
def digitsToInt (l : List Char) : ℤ :=
  l.foldl (fun acc c => 10 * acc + digitVal c) 0

/-- Smallest Go `int` (64-bit). -/
def intMin64 : ℤ := -(2 ^ 63)

/-- Largest Go `int` (64-bit). -/
def intMax64 : ℤ := 2 ^ 63 - 1

/-- `strconv.Atoi`, i.e. `ParseInt(s, 10, 0)`: an optional leading `+` or `-`
sign followed by at least one decimal digit, value within the 64-bit `int`
range.  `none` covers both `ErrSyntax` and `ErrRange` (in either case
`Atoi`'s error is non-nil, which is all the callers inspect). -/
def atoi (s : String) : Option ℤ :=
  let signAndDigits : Bool × List Char :=
    match s.data with
    | '-' :: t => (true, t)
    | '+' :: t => (false, t)
    | t => (false, t)
  let ds := signAndDigits.2
  if ds.isEmpty then none
  else if ds.all Char.isDigit then
    let val := if signAndDigits.1 then -digitsToInt ds else digitsToInt ds
    if val < intMin64 ∨ intMax64 < val then none else some val
  else none

/-- Go's `int(f)` conversion on a `float64`: truncation toward zero. -/
def truncQ (q : ℚ) : ℤ :=
  if 0 ≤ q then ⌊q⌋ else ⌈q⌉

/-! ## `fmt` formatting of `float64` with `%.2f`

`fmt.Printf("%.2f", x)` prints the decimal closest to `x` with two fractional
digits, ties resolved to the even hundredth (the shortest-round-trip decimal
conversion Go's `strconv` performs rounds half to even). -/

namespace Ex02

/-- The value-receiver implementations of the exercise file's `Shape`
interface with rational geometry: `Square` and `Triangle`.  (`Circle` lacks
the `Name` method and so does not satisfy `Shape`; `Ellipse` satisfies it
only via pointer receivers and has irrational area/perimeter.) -/
inductive ExShape : Type
  | square (side : ℚ)
  | triangle (base height : ℚ)
deriving DecidableEq

/-- `Area`: `Side * Side` for a square, `0.5 * Base * Height` for a triangle. -/
def ExShape.Area : ExShape → ℚ
  | .square side => side * side
  | .triangle base height => 1 / 2 * base * height

/-- `CompareShapes` as written in the exercise file.  Its documented contract
is `-1` when `s1` has the smaller area and `1` when it has the larger, but
the body returns `1` and `-1` the other way around (the planted bug, marked
`// BUG: Comparison logic is reversed`). -/
def CompareShapes (s1 s2 : ExShape) : ℤ :=
  let area1 := s1.Area
  let area2 := s2.Area
  if area1 < area2 then 1
  else if area1 > area2 then -1
  else 0

/-- The exercise `GetIntValue`: the unchecked assertion `v.(int)` panics
whenever the dynamic type is not `int`; `none` is the panic. -/
def GetIntValue (v : GoValue) : Option ℤ :=
  match v with
  | .vInt n => some n
  | _ => none

end Ex02

/-! ## Module 02 solutions (`modules/02-types-interfaces/solutions/exercise2_type_assertions.go`) -/

namespace Sol02

/-- The solution `GetIntValue`: the checked assertion `value, ok := v.(int)`
never panics; the function is total and returns `0` on any non-`int`. -/
def GetIntValue (v : GoValue) : ℤ :=
  match v with
  | .vInt n => n
  | _ => 0

/-- The solution `ConvertToInt`, returning the Go pair `(int, error)`. -/
def ConvertToInt (v : GoValue) : ℤ × Option GoError :=
  match v with
  | .vInt n => (n, none)
  | .vFloat q => (truncQ q, none)
  | .vString s =>
    match atoi s with
    | some n => (n, none)
    | none => (0, some (.stringConvError s))
  | .vBool b => (if b then 1 else 0, none)
  | _ => (0, some .typeConvError)

/-- `TypeSafeMap` wraps a `map[string]interface{}`. -/
structure TypeSafeMap : Type where
  data : GoMap GoValue
deriving DecidableEq

/-- `NewTypeSafeMap` creates an empty map. -/
def NewTypeSafeMap : TypeSafeMap :=
  ⟨[]⟩

/-- `Set` stores a value: `m.data[key] = value`. -/
def TypeSafeMap.Set (m : TypeSafeMap) (key : String) (value : GoValue) : TypeSafeMap :=
  ⟨mapSet m.data key value⟩

/-- `GetInt`: `0` when the key is missing or the stored value is not an `int`. -/
def TypeSafeMap.GetInt (m : TypeSafeMap) (key : String) : ℤ :=
  match mapLookup m.data key with
  | none => 0
  | some (.vInt n) => n
  | some _ => 0

/-- `GetString`: `""` when the key is missing or the value is not a `string`. -/
def TypeSafeMap.GetString (m : TypeSafeMap) (key : String) : String :=
  match mapLookup m.data key with
  | none => ""
  | some (.vString s) => s
  | some _ => ""

/-- `Contains`: the two-value map access `_, exists := m.data[key]`. -/
def TypeSafeMap.Contains (m : TypeSafeMap) (key : String) : Bool :=
  (mapLookup m.data key).isSome

/-- A `TypeSafeMap` obtained from `NewTypeSafeMap` by a sequence of `Set`
calls, applied in order. -/
def buildMap (ops : List (String × GoValue)) : TypeSafeMap :=
  ops.foldl (fun m kv => m.Set kv.1 kv.2) NewTypeSafeMap

end Sol02

/-! ## Association-list map lemmas -/

theorem mapLookup_mapSet {V : Type} (m : GoMap V) (k k1 : String) (v : V) :
    mapLookup (mapSet m k v) k1 = if k1 = k then some v else mapLookup m k1 := by
  induction m with
  | nil =>
    simp [mapSet, mapLookup]
  | cons hd t ih =>
    obtain ⟨k2, v2⟩ := hd
    by_cases hk : k = k2
    · subst hk
      by_cases h1 : k1 = k <;> simp [mapSet, mapLookup, h1]
    · by_cases h1 : k1 = k2
      · subst h1
        have hk1 : ¬k1 = k := fun h => hk h.symm
        simp [mapSet, mapLookup, hk, hk1]
      · simp [mapSet, mapLookup, hk, h1, ih]

theorem mapLookup_eq_none_of_not_mem {V : Type} (m : GoMap V) (k : String)
    (h : k ∉ mapKeys m) : mapLookup m k = none := by
  induction m with
  | nil => rfl
  | cons hd t ih =>
    simp only [mapKeys, List.map_cons, List.mem_cons, not_or] at h
    simp only [mapLookup, if_neg h.1]
    exact ih (by simpa [mapKeys] using h.2)

theorem mapLookup_copyInto {V : Type} (src : GoMap V) (dst : GoMap V) (k : String)
    (h : (mapKeys src).Nodup) :
    mapLookup (copyInto dst src) k = mapOr (mapLookup src k) (mapLookup dst k) := by
  induction src generalizing dst with
  | nil =>
    simp [copyInto, mapLookup, mapOr]
  | cons hd t ih =>
    obtain ⟨k1, v1⟩ := hd
    simp only [mapKeys, List.map_cons, List.nodup_cons] at h
    have step : copyInto dst ((k1, v1) :: t) = copyInto (mapSet dst k1 v1) t := rfl
    rw [step, ih (mapSet dst k1 v1) h.2]
    by_cases hk : k = k1
    · subst hk
      have hnone : mapLookup t k = none :=
        mapLookup_eq_none_of_not_mem t k (by simpa [mapKeys] using h.1)
      simp [mapLookup, hnone, mapOr, mapLookup_mapSet]
    · simp [mapLookup, hk, mapOr, mapLookup_mapSet]

theorem mapOr_isSome {V : Type} (a b : Option V) :
    (mapOr a b).isSome = (a.isSome || b.isSome) := by
  cases a <;> simp [mapOr]

theorem mergeMaps_lookup (m1 m2 : GoMap ℤ) (h1 : (mapKeys m1).Nodup)
    (h2 : (mapKeys m2).Nodup) (k : String) :
    mapLookup (Sol01.MergeMaps m1 m2) k = mapOr (mapLookup m2 k) (mapLookup m1 k) := by
  unfold Sol01.MergeMaps
  rw [mapLookup_copyInto m2 _ k h2, mapLookup_copyInto m1 _ k h1]
  cases mapLookup m2 k <;> cases mapLookup m1 k <;> simp [mapOr, mapLookup]

/-! ## Fibonacci lemmas -/

theorem wrap64_eq_self (x : ℤ) (h1 : intMin64 ≤ x) (h2 : x ≤ intMax64) : wrap64 x = x := by
  have p63 : (2 : ℤ) ^ 63 = 9223372036854775808 := by norm_num
  have p64 : (2 : ℤ) ^ 64 = 18446744073709551616 := by norm_num
  unfold wrap64
  unfold intMin64 at h1
  unfold intMax64 at h2
  rw [p63, p64]
  rw [p63] at h1 h2
  omega

theorem fibLoop_wfib (k : ℕ) : ∀ m : ℕ,
    Sol01.fibLoop k (wfib m, wfib (m + 1)) = (wfib (m + k), wfib (m + k + 1)) := by
  induction k with
  | zero => intro m; simp [Sol01.fibLoop]
  | succ k ih =>
    intro m
    have step : Sol01.fibLoop (k + 1) (wfib m, wfib (m + 1))
        = Sol01.fibLoop k (wfib (m + 1), wrap64 (wfib m + wfib (m + 1))) := rfl
    have hsucc : wrap64 (wfib m + wfib (m + 1)) = wfib (m + 1 + 1) := rfl
    rw [step, hsucc, ih (m + 1)]
    have e1 : m + 1 + k = m + (k + 1) := by omega
    rw [e1]

theorem fibonacci_eq_wfib (n : ℤ) (h : 0 ≤ n) : Sol01.Fibonacci n = wfib n.toNat := by
  unfold Sol01.Fibonacci
  by_cases h0 : n = 0
  · subst h0
    rfl
  · rw [if_neg h0]
    by_cases h1 : n = 1
    · subst h1
      rfl
    · rw [if_neg h1]
      have h2 : 2 ≤ n := by omega
      have base : ((0 : ℤ), (1 : ℤ)) = (wfib 0, wfib 1) := rfl
      rw [base, fibLoop_wfib (n - 1).toNat 0]
      have e1 : 0 + (n - 1).toNat + 1 = n.toNat := by omega
      rw [e1]

theorem altFib_eq_wfib_nat (k : ℕ) :
    Sol01.AlternativeFibonacciRecursive (k : ℤ) = wfib k := by
  induction k using Nat.strong_induction_on with
  | _ k ih =>
    match k with
    | 0 =>
      simp [Sol01.AlternativeFibonacciRecursive, wfib]
    | 1 =>
      simp [Sol01.AlternativeFibonacciRecursive, wfib]
    | (k + 2) =>
      rw [Sol01.AlternativeFibonacciRecursive]
      rw [if_neg (by omega)]
      have e1 : ((k : ℤ) + 2) - 1 = ((k + 1 : ℕ) : ℤ) := by push_cast; ring
      have e2 : ((k : ℤ) + 2) - 2 = ((k : ℕ) : ℤ) := by ring
      push_cast
      rw [e1, e2]
      rw [ih (k + 1) (by omega), ih k (by omega)]
      rw [show wfib (k + 2) = wrap64 (wfib k + wfib (k + 1)) from rfl]
      rw [add_comm (wfib (k + 1)) (wfib k)]

theorem altFib_eq_wfib (n : ℤ) (h : 0 ≤ n) :
    Sol01.AlternativeFibonacciRecursive n = wfib n.toNat := by
  have e : n = ((n.toNat : ℕ) : ℤ) := by omega
  conv_lhs => rw [e]
  rw [altFib_eq_wfib_nat]

theorem wfib_eq_fib (n : ℕ) :
    (Nat.fib n : ℤ) ≤ intMax64 → wfib n = (Nat.fib n : ℤ) := by
  induction n using Nat.strong_induction_on with
  | _ n ih =>
    match n with
    | 0 => intro _; rfl
    | 1 => intro _; rfl
    | (k + 2) =>
      intro h
      have hm1 : Nat.fib k ≤ Nat.fib (k + 2) := Nat.fib_mono (by omega)
      have hm2 : Nat.fib (k + 1) ≤ Nat.fib (k + 2) := Nat.fib_mono (by omega)
      have hk : (Nat.fib k : ℤ) ≤ intMax64 := le_trans (by exact_mod_cast hm1) h
      have hk1 : (Nat.fib (k + 1) : ℤ) ≤ intMax64 := le_trans (by exact_mod_cast hm2) h
      rw [show wfib (k + 2) = wrap64 (wfib k + wfib (k + 1)) from rfl]
      rw [ih k (by omega) hk, ih (k + 1) (by omega) hk1]
      rw [show (Nat.fib k : ℤ) + (Nat.fib (k + 1) : ℤ) = (Nat.fib (k + 2) : ℤ) from by
        rw [Nat.fib_add_two]; push_cast; ring]
      refine wrap64_eq_self _ ?_ h
      have hpos : (0 : ℤ) ≤ (Nat.fib (k + 2) : ℤ) := by positivity
      have hmin : intMin64 ≤ (0 : ℤ) := by norm_num [intMin64]
      exact le_trans hmin hpos

/-! ## FindMax lemmas -/

theorem foldl_maxStep_bound (l : List ℤ) : ∀ acc : ℤ,
    acc ≤ l.foldl Sol01.maxStep acc ∧ ∀ x ∈ l, x ≤ l.foldl Sol01.maxStep acc := by
  induction l with
  | nil => intro acc; simp
  | cons hd t ih =>
    intro acc
    simp only [List.foldl_cons]
    have h1 : acc ≤ Sol01.maxStep acc hd := by
      unfold Sol01.maxStep; split <;> omega
    have h2 : hd ≤ Sol01.maxStep acc hd := by
      unfold Sol01.maxStep; split <;> omega
    have iht := ih (Sol01.maxStep acc hd)
    refine ⟨le_trans h1 iht.1, ?_⟩
    intro x hx
    rcases List.mem_cons.mp hx with hx | hx
    · subst hx
      exact le_trans h2 iht.1
    · exact iht.2 x hx

theorem foldl_maxStep_mem (l : List ℤ) : ∀ acc : ℤ,
    l.foldl Sol01.maxStep acc = acc ∨ l.foldl Sol01.maxStep acc ∈ l := by
  induction l with
  | nil => intro acc; simp
  | cons hd t ih =>
    intro acc
    simp only [List.foldl_cons]
    have hstep : Sol01.maxStep acc hd = acc ∨ Sol01.maxStep acc hd = hd := by
      unfold Sol01.maxStep; split <;> simp
    rcases ih (Sol01.maxStep acc hd) with h | h
    · rcases hstep with hs | hs
      · left
        rw [h, hs]
      · right
        rw [h, hs]
        exact List.mem_cons_self hd t
    · right
      exact List.mem_cons_of_mem hd h

/-! ## `TypeSafeMap` build lemma -/

theorem buildMap_lookup_none (ops : List (String × GoValue)) (k : String)
    (h : k ∉ ops.map Prod.fst) :
    mapLookup (Sol02.buildMap ops).data k = none := by
  suffices hgen : ∀ m : Sol02.TypeSafeMap,
      mapLookup ((ops.foldl (fun m kv => m.Set kv.1 kv.2) m).data) k = mapLookup m.data k by
    exact (hgen Sol02.NewTypeSafeMap).trans rfl
  induction ops with
  | nil => intro m; rfl
  | cons hd t ih =>
    intro m
    simp only [List.map_cons, List.mem_cons, not_or] at h
    have iht := ih h.2 (m.Set hd.1 hd.2)
    simp only [List.foldl_cons]
    rw [iht]
    show mapLookup (mapSet m.data hd.1 hd.2) k = mapLookup m.data k
    rw [mapLookup_mapSet, if_neg h.1]

/-! ## `%.2f` formatting lemmas -/

theorem contains_set (m : Sol02.TypeSafeMap) (k : String) (v : GoValue) :
    (m.Set k v).Contains k = true := by
  show (mapLookup (mapSet m.data k v) k).isSome = true
  rw [mapLookup_mapSet, if_pos rfl]
  rfl

theorem getInt_set (m : Sol02.TypeSafeMap) (k : String) (v : GoValue) :
    (m.Set k v).GetInt k = (match v with | .vInt n => n | _ => 0) := by
  unfold Sol02.TypeSafeMap.GetInt
  rw [show mapLookup (m.Set k v).data k = some v from by
    show mapLookup (mapSet m.data k v) k = some v
    rw [mapLookup_mapSet, if_pos rfl]]
  cases v <;> rfl

theorem getString_set (m : Sol02.TypeSafeMap) (k : String) (v : GoValue) :
    (m.Set k v).GetString k = (match v with | .vString s => s | _ => "") := by
  unfold Sol02.TypeSafeMap.GetString
  rw [show mapLookup (m.Set k v).data k = some v from by
    show mapLookup (mapSet m.data k v) k = some v
    rw [mapLookup_mapSet, if_pos rfl]]
  cases v <;> rfl

/-! ## Claim theorems -/

/-- C1: the exercise `CompareShapes` does **not** order shapes by area the way
its documented contract states.  At the concrete squares of side `1` and `2`
(areas `1 < 4`) it returns `1` where the contract promises `-1`, and `-1`
where the contract promises `1`; only the equal-area case matches.  This is
the planted bug the file itself marks with `// BUG: Comparison logic is
reversed`, so the code contradicts its own documentation. -/
theorem c1_compareShapes_reversed :
    Ex02.CompareShapes (.square 1) (.square 2) = 1
      ∧ Ex02.CompareShapes (.square 2) (.square 1) = -1
      ∧ Ex02.CompareShapes (.square 1) (.square 1) = 0 := by
  refine ⟨?_, ?_, ?_⟩ <;> norm_num [Ex02.CompareShapes, Ex02.ExShape.Area]

/-- C2: the exercise `GetIntValue` panics (modelled as `none`) on every value
whose dynamic type is not `int` and returns the `int` value otherwise, while
the solution `GetIntValue` is total — it returns the stored `int` when the
dynamic type is `int` and `0` on every other value, its panic branch being
unreachable (the function has no panicking operation: it is total by type). -/
theorem c2_getIntValue :
    (∀ n : ℤ, Ex02.GetIntValue (.vInt n) = some n)
      ∧ (∀ v : GoValue, v.isInt = false → Ex02.GetIntValue v = none)
      ∧ (∀ n : ℤ, Sol02.GetIntValue (.vInt n) = n)
      ∧ (∀ v : GoValue, v.isInt = false → Sol02.GetIntValue v = 0) := by
  refine ⟨fun n => rfl, ?_, fun n => rfl, ?_⟩ <;>
    · intro v h
      cases v <;> simp_all [GoValue.isInt, Ex02.GetIntValue, Sol02.GetIntValue]

/-- Witness for C2 at concrete inputs. -/
theorem c2_witness :
    Ex02.GetIntValue (.vString "go") = none
      ∧ Sol02.GetIntValue (.vString "go") = 0
      ∧ Ex02.GetIntValue (.vInt 7) = some 7
      ∧ Sol02.GetIntValue (.vInt 7) = 7 :=
  ⟨c2_getIntValue.2.1 (.vString "go") rfl, c2_getIntValue.2.2.2 (.vString "go") rfl,
    c2_getIntValue.1 7, c2_getIntValue.2.2.1 7⟩

/-- C3: the solution `ConvertToInt` returns an error exactly when the input
is a string that `strconv.Atoi` rejects or has a dynamic type other than
`int`, `float64`, `string` or `bool`; on every error the `int` result is `0`,
and on success it is the `int` unchanged, the `float64` truncated toward
zero, the parsed string value, or `1`/`0` for `true`/`false`. -/
theorem c3_convertToInt :
    (∀ n : ℤ, Sol02.ConvertToInt (.vInt n) = (n, none))
      ∧ (∀ q : ℚ, Sol02.ConvertToInt (.vFloat q) = (truncQ q, none))
      ∧ (∀ (s : String) (n : ℤ), atoi s = some n → Sol02.ConvertToInt (.vString s) = (n, none))
      ∧ (∀ s : String, atoi s = none →
          Sol02.ConvertToInt (.vString s) = (0, some (.stringConvError s)))
      ∧ (Sol02.ConvertToInt (.vBool true) = (1, none)
          ∧ Sol02.ConvertToInt (.vBool false) = (0, none))
      ∧ (∀ v : GoValue, v.isConvSupported = false →
          Sol02.ConvertToInt v = (0, some .typeConvError))
      ∧ (∀ v : GoValue, (Sol02.ConvertToInt v).2 ≠ none → (Sol02.ConvertToInt v).1 = 0)
      ∧ (∀ v : GoValue, (Sol02.ConvertToInt v).2 ≠ none ↔
          ((∃ s, v = .vString s ∧ atoi s = none) ∨ v.isConvSupported = false)) := by
  refine ⟨fun n => rfl, fun q => rfl, ?_, ?_, ⟨rfl, rfl⟩, ?_, ?_, ?_⟩
  · intro s n h
    simp [Sol02.ConvertToInt, h]
  · intro s h
    simp [Sol02.ConvertToInt, h]
  · intro v h
    cases v <;> simp_all [GoValue.isConvSupported, Sol02.ConvertToInt]
  · intro v h
    cases v with
    | vString s =>
      cases hs : atoi s with
      | some n => simp [Sol02.ConvertToInt, hs] at h
      | none => simp [Sol02.ConvertToInt, hs]
    | vInt n => simp [Sol02.ConvertToInt] at h
    | vFloat q => simp [Sol02.ConvertToInt] at h
    | vBool b => simp [Sol02.ConvertToInt] at h
    | vNil => rfl
    | vIntSlice l => rfl
  · intro v
    cases v with
    | vString s =>
      cases hs : atoi s with
      | some n => simp [Sol02.ConvertToInt, hs, GoValue.isConvSupported]
      | none => simp [Sol02.ConvertToInt, hs, GoValue.isConvSupported]
    | vInt n => simp [Sol02.ConvertToInt, GoValue.isConvSupported]
    | vFloat q => simp [Sol02.ConvertToInt, GoValue.isConvSupported]
    | vBool b => simp [Sol02.ConvertToInt, GoValue.isConvSupported]
    | vNil => simp [Sol02.ConvertToInt, GoValue.isConvSupported]
    | vIntSlice l => simp [Sol02.ConvertToInt, GoValue.isConvSupported]

/-- Witness for C3 at concrete inputs. -/
theorem c3_witness :
    Sol02.ConvertToInt (.vString "123") = (123, none)
      ∧ Sol02.ConvertToInt (.vString "12a") = (0, some (.stringConvError "12a"))
      ∧ Sol02.ConvertToInt .vNil = (0, some .typeConvError)
      ∧ Sol02.ConvertToInt (.vInt 9) = (9, none) :=
  ⟨c3_convertToInt.2.2.1 "123" 123 (by decide),
    c3_convertToInt.2.2.2.1 "12a" (by decide),
    c3_convertToInt.2.2.2.2.2.1 .vNil rfl,
    c3_convertToInt.1 9⟩

/-- C4: `MergeMaps` builds a fresh map whose key set is the union of the two
arguments' key sets, taking `map2`'s value on keys present in `map2` and
`map1`'s value otherwise.  The Go function writes only to a map it makes
itself, and the embedding is pure, so neither argument is modified. -/
theorem c4_mergeMaps (m1 m2 : GoMap ℤ)
    (h1 : (mapKeys m1).Nodup) (h2 : (mapKeys m2).Nodup) (k : String) :
    ((mapLookup (Sol01.MergeMaps m1 m2) k).isSome
        ↔ ((mapLookup m1 k).isSome ∨ (mapLookup m2 k).isSome))
      ∧ (∀ v : ℤ, mapLookup m2 k = some v → mapLookup (Sol01.MergeMaps m1 m2) k = some v)
      ∧ (mapLookup m2 k = none → mapLookup (Sol01.MergeMaps m1 m2) k = mapLookup m1 k) := by
  have hmain := mergeMaps_lookup m1 m2 h1 h2 k
  refine ⟨?_, ?_, ?_⟩
  · rw [hmain, mapOr_isSome]
    cases mapLookup m1 k <;> cases mapLookup m2 k <;> simp
  · intro v hv
    rw [hmain, hv]
    rfl
  · intro hv
    rw [hmain, hv]
    rfl

/-- Witness for C4 at the maps of the repository's own demonstration,
`{"a": 1, "b": 2}` merged with `{"b": 3, "c": 4}`. -/
theorem c4_witness :
    mapLookup (Sol01.MergeMaps [("a", 1), ("b", 2)] [("b", 3), ("c", 4)]) "b" = some 3
      ∧ mapLookup (Sol01.MergeMaps [("a", 1), ("b", 2)] [("b", 3), ("c", 4)]) "a" = some 1 := by
  constructor
  · exact (c4_mergeMaps [("a", 1), ("b", 2)] [("b", 3), ("c", 4)]
      (by decide) (by decide) "b").2.1 3 (by decide)
  · have h := (c4_mergeMaps [("a", 1), ("b", 2)] [("b", 3), ("c", 4)]
      (by decide) (by decide) "a").2.2 (by decide)
    rw [h]
    decide

/-- C5: `GetGrade 85 = "B"`, and in general `GetGrade` maps `score ≥ 90` to
`"A"`, `80 ≤ score < 90` to `"B"`, `70 ≤ score < 80` to `"C"`,
`60 ≤ score < 70` to `"D"` and everything below `60` to `"F"`. -/
theorem c5_getGrade (score : ℤ) :
    Sol01.GetGrade 85 = "B"
      ∧ (90 ≤ score → Sol01.GetGrade score = "A")
      ∧ (80 ≤ score ∧ score < 90 → Sol01.GetGrade score = "B")
      ∧ (70 ≤ score ∧ score < 80 → Sol01.GetGrade score = "C")
      ∧ (60 ≤ score ∧ score < 70 → Sol01.GetGrade score = "D")
      ∧ (score < 60 → Sol01.GetGrade score = "F") := by
  unfold Sol01.GetGrade
  refine ⟨by decide, ?_, ?_, ?_, ?_, ?_⟩ <;> intro h
  · rw [if_pos (by omega)]
  · rw [if_neg (by omega), if_pos (by omega)]
  · rw [if_neg (by omega), if_neg (by omega), if_pos (by omega)]
  · rw [if_neg (by omega), if_neg (by omega), if_neg (by omega), if_pos (by omega)]
  · rw [if_neg (by omega), if_neg (by omega), if_neg (by omega), if_neg (by omega)]

/-- Witness for C5: one score from each grade band. -/
theorem c5_witness :
    Sol01.GetGrade 85 = "B" ∧ Sol01.GetGrade 95 = "A" ∧ Sol01.GetGrade 72 = "C"
      ∧ Sol01.GetGrade 65 = "D" ∧ Sol01.GetGrade 10 = "F" :=
  ⟨(c5_getGrade 85).1,
    (c5_getGrade 95).2.1 (by decide),
    (c5_getGrade 72).2.2.2.1 ⟨by decide, by decide⟩,
    (c5_getGrade 65).2.2.2.2.1 ⟨by decide, by decide⟩,
    (c5_getGrade 10).2.2.2.2.2 (by decide)⟩

/-- C6 counterexample: Go `int` addition wraps at 64 bits, so `CalculateSum`
does not return the mathematical sum for every pair of integers: at the
largest `int` and `1` it returns the smallest `int`, not `2^63`. -/
theorem c6_calculateSum_wraps :
    Sol01.CalculateSum intMax64 1 = intMin64 ∧ intMin64 ≠ intMax64 + 1 := by
  constructor
  · decide
  · decide

/-- C6 as amended: `CalculateSum 3 5 = 8`, and for all `int` values `a` and
`b` whose exact sum still fits in an `int`, `CalculateSum a b = a + b`; when
the sum overflows, the result is the two's-complement wrap-around instead. -/
theorem c6_calculateSum (a b : ℤ)
    (_ha1 : intMin64 ≤ a) (_ha2 : a ≤ intMax64)
    (_hb1 : intMin64 ≤ b) (_hb2 : b ≤ intMax64)
    (hs1 : intMin64 ≤ a + b) (hs2 : a + b ≤ intMax64) :
    Sol01.CalculateSum 3 5 = 8 ∧ Sol01.CalculateSum a b = a + b := by
  refine ⟨by decide, ?_⟩
  unfold Sol01.CalculateSum
  exact wrap64_eq_self (a + b) hs1 hs2

/-- Witness for C6 at `3 + 5`, which does not overflow. -/
theorem c6_witness :
    Sol01.CalculateSum 3 5 = 8 ∧ Sol01.CalculateSum 3 5 = 3 + 5 := by
  have h := c6_calculateSum 3 5 (by decide) (by decide) (by decide) (by decide)
    (by decide) (by decide)
  exact ⟨h.1, h.2⟩

set_option maxRecDepth 8000 in
/-- C8 counterexample: from `n = 93` the Go solutions no longer follow the
mathematical Fibonacci sequence: `fib 93 = 12200160415121876738` exceeds the
largest `int`, so the wrapping addition makes `Fibonacci 93` negative. -/
theorem c8_fibonacci_wraps :
    Sol01.Fibonacci 93 = -6246583658587674878
      ∧ (Nat.fib 93 : ℤ) = 12200160415121876738
      ∧ Sol01.Fibonacci 93 ≠ (Nat.fib 93 : ℤ) := by
  refine ⟨by decide, by decide, by decide⟩

/-- C8 as amended: the iterative `Fibonacci` and the recursive
`AlternativeFibonacciRecursive` agree on every `n ≥ 0`, and both follow the
mathematical Fibonacci sequence `0, 1, 1, 2, 3, 5, 8, 13, 21, ...` exactly
as long as `fib n` fits in an `int` (that is, through `n = 92`); past that
both return the same two's-complement-wrapped values. -/
theorem c8_fibonacci_agree :
    (∀ n : ℤ, 0 ≤ n → Sol01.Fibonacci n = Sol01.AlternativeFibonacciRecursive n)
      ∧ (∀ n : ℤ, 0 ≤ n → (Nat.fib n.toNat : ℤ) ≤ intMax64 →
          Sol01.Fibonacci n = (Nat.fib n.toNat : ℤ)
            ∧ Sol01.AlternativeFibonacciRecursive n = (Nat.fib n.toNat : ℤ))
      ∧ (List.range 9).map (fun i => Sol01.Fibonacci (i : ℤ)) = [0, 1, 1, 2, 3, 5, 8, 13, 21] := by
  refine ⟨?_, ?_, by decide⟩
  · intro n h
    rw [fibonacci_eq_wfib n h, altFib_eq_wfib n h]
  · intro n h hr
    have h1 : wfib n.toNat = (Nat.fib n.toNat : ℤ) := wfib_eq_fib n.toNat hr
    exact ⟨(fibonacci_eq_wfib n h).trans h1, (altFib_eq_wfib n h).trans h1⟩

/-- Witness for C8 at `n = 10`, where `fib 10 = 55` is far within range. -/
theorem c8_witness :
    Sol01.Fibonacci 10 = Sol01.AlternativeFibonacciRecursive 10
      ∧ Sol01.Fibonacci 10 = (Nat.fib 10 : ℤ) := by
  have h1 := c8_fibonacci_agree.1 10 (by decide)
  have h2 := c8_fibonacci_agree.2.1 10 (by decide) (by decide)
  exact ⟨h1, h2.1⟩

/-- C9: the solution `TypeSafeMap` satisfies the store/retrieve round trip:
after `Set k (int v)`, `Contains k` is `true` and `GetInt k` is `v`; on a map
built by any sequence of `Set` calls none of which used `k`, `Contains k` is
`false` and `GetInt k` is `0`; and when the value stored at `k` is not an
`int` (resp. not a `string`), `GetInt` (resp. `GetString`) returns the zero
value `0` (resp. `""`) instead of failing. -/
theorem c9_typeSafeMap :
    (∀ (m : Sol02.TypeSafeMap) (k : String) (n : ℤ),
        (m.Set k (.vInt n)).Contains k = true ∧ (m.Set k (.vInt n)).GetInt k = n)
      ∧ (∀ (ops : List (String × GoValue)) (k : String), k ∉ ops.map Prod.fst →
          (Sol02.buildMap ops).Contains k = false ∧ (Sol02.buildMap ops).GetInt k = 0)
      ∧ (∀ (m : Sol02.TypeSafeMap) (k : String) (v : GoValue), v.isInt = false →
          (m.Set k v).GetInt k = 0)
      ∧ (∀ (m : Sol02.TypeSafeMap) (k : String) (v : GoValue), v.isString = false →
          (m.Set k v).GetString k = "") := by
  refine ⟨?_, ?_, ?_, ?_⟩
  · intro m k n
    refine ⟨contains_set m k (.vInt n), ?_⟩
    rw [getInt_set]
  · intro ops k hk
    have h := buildMap_lookup_none ops k hk
    constructor
    · show (mapLookup (Sol02.buildMap ops).data k).isSome = false
      rw [h]
      rfl
    · unfold Sol02.TypeSafeMap.GetInt
      rw [h]
  · intro m k v hv
    rw [getInt_set]
    cases v <;> simp_all [GoValue.isInt]
  · intro m k v hv
    rw [getString_set]
    cases v <;> simp_all [GoValue.isString]

/-- Witness for C9 at concrete keys and values. -/
theorem c9_witness :
    ((Sol02.NewTypeSafeMap.Set "a" (.vInt 5)).Contains "a" = true
        ∧ (Sol02.NewTypeSafeMap.Set "a" (.vInt 5)).GetInt "a" = 5)
      ∧ ((Sol02.buildMap [("a", .vInt 1)]).Contains "b" = false
        ∧ (Sol02.buildMap [("a", .vInt 1)]).GetInt "b" = 0)
      ∧ (Sol02.NewTypeSafeMap.Set "a" (.vBool true)).GetInt "a" = 0
      ∧ (Sol02.NewTypeSafeMap.Set "a" (.vInt 5)).GetString "a" = "" :=
  ⟨c9_typeSafeMap.1 Sol02.NewTypeSafeMap "a" 5,
    c9_typeSafeMap.2.1 [("a", .vInt 1)] "b" (by decide),
    c9_typeSafeMap.2.2.1 Sol02.NewTypeSafeMap "a" (.vBool true) rfl,
    c9_typeSafeMap.2.2.2 Sol02.NewTypeSafeMap "a" (.vInt 5) rfl⟩

/-- C10: `FindMax` returns the sentinel `0` on the empty slice — so an empty
input is indistinguishable from a slice whose maximum is `0` — and on every
non-empty slice (all-negative ones included) it returns an element of the
slice that bounds every element from above. -/
theorem c10_findMax :
    Sol01.FindMax [] = 0
      ∧ Sol01.FindMax [] = Sol01.FindMax [0]
      ∧ ∀ l : List ℤ, l ≠ [] →
          Sol01.FindMax l ∈ l ∧ ∀ x ∈ l, x ≤ Sol01.FindMax l := by
  refine ⟨rfl, by decide, ?_⟩
  intro l hl
  cases l with
  | nil => exact absurd rfl hl
  | cons hd t =>
    have hmem := foldl_maxStep_mem (hd :: t) hd
    have hbound := foldl_maxStep_bound (hd :: t) hd
    constructor
    · show (hd :: t).foldl Sol01.maxStep hd ∈ hd :: t
      rcases hmem with h | h
      · rw [h]
        exact List.mem_cons_self hd t
      · exact h
    · intro x hx
      exact hbound.2 x hx

/-- Witness for C10 at the repository's own all-negative demonstration slice
`[-5, -2, -10]`. -/
theorem c10_witness :
    Sol01.FindMax [-5, -2, -10] ∈ ([-5, -2, -10] : List ℤ)
      ∧ (-5 : ℤ) ≤ Sol01.FindMax [-5, -2, -10]
      ∧ Sol01.FindMax [-5, -2, -10] = -2 := by
  have h := c10_findMax.2.2 [-5, -2, -10] (by decide)
  exact ⟨h.1, h.2 (-5) (by decide), by decide⟩

end LearnGo
